import Mathlib

/-
Verification of the py_interpreter_proj language front end.
Shallow embedding of interpreter_logic/lexer.py and interpreter_logic/parser.py,
plus an evaluator modelled from the specification (the interpreter module is
not present in the source tree).  Machine integers are modelled as Int
(Python integers are unbounded), character classes are the ASCII fragment of
the Python predicates, and the token stream consumed by the parser is
represented by its unread suffix (the Python parser only ever reads
tokens[pos] and tokens[pos+1] and increments pos).
-/

namespace PyInterp

/-- Token kinds: one constructor per token-type constant in lexer.py. -/
inductive TokTy where
  | INTEGER | BOOLEAN | IDENTIFIER | KEYWORD | STRING
  | PLUS | MINUS | MULTIPLY | DIVIDE | MODULO
  | AND | OR | NOT
  | EQ | NEQ | GT | LT | GTE | LTE
  | LPAREN | RPAREN | COMMA | DOT | EOF
  | LAMBDA | LBRACE | RBRACE | QUESTION | COLON | ASSIGN
deriving DecidableEq, Repr

/-- Token payloads are Python objects: None, an int, a str, or a bool. -/
inductive PyObj where
  | none
  | int (n : Int)
  | str (s : String)
  | bool (b : Bool)
deriving DecidableEq, Repr

/-- Token: a kind together with its payload (lexer.py, class Token). -/
structure Token where
  type : TokTy
  value : PyObj
deriving DecidableEq, Repr

/-- The end-of-input token Token(EOF, None). -/
def eofTok : Token := ⟨.EOF, .none⟩

/-- Errors raised by the lexer. -/
inductive LexErr where
  | unterminatedString
  | unexpectedChar (c : Char)
  | outOfFuel
deriving DecidableEq, Repr

/-- The single-quote character. -/
def squote : Char := Char.ofNat 39

/-- ASCII model of the Python isspace test used by skip_whitespace. -/
def pyIsSpace (c : Char) : Bool :=
  c.toNat = 32 || c.toNat = 9 || c.toNat = 10 || c.toNat = 13 || c.toNat = 11 || c.toNat = 12

/-- ASCII model of the Python isdigit test. -/
def pyIsDigit (c : Char) : Bool :=
  48 ≤ c.toNat && c.toNat ≤ 57

/-- ASCII model of the Python isalpha test. -/
def pyIsAlpha (c : Char) : Bool :=
  (97 ≤ c.toNat && c.toNat ≤ 122) || (65 ≤ c.toNat && c.toNat ≤ 90)

/-- ASCII model of the Python isalnum test. -/
def pyIsAlnum (c : Char) : Bool :=
  pyIsAlpha c || pyIsDigit c

/-- Characters allowed inside an identifier: isalnum or underscore (Lexer.identifier). -/
def is_ident_char (c : Char) : Bool :=
  pyIsAlpha c || pyIsDigit c || c = '_'

/-- Value of a run of decimal digits (Lexer.integer, i.e. int(result)). -/
def digits_to_int (ds : List Char) : Int :=
  Int.ofNat (ds.foldl (fun a c => a * 10 + (c.toNat - 48)) 0)

/-- The keyword table KEYWORDS of lexer.py. -/
def KEYWORDS : List (String × TokTy) :=
  [("Defun", .KEYWORD), ("Lambd", .KEYWORD), ("True", .BOOLEAN), ("False", .BOOLEAN)]

/-- Lexer.identifier: tag a scanned word by the keyword table, else IDENTIFIER. -/
def identifier_token (result : String) : Token :=
  match KEYWORDS.find? (fun kv => kv.1 == result) with
  | some kv => ⟨kv.2, .str result⟩
  | Option.none => ⟨.IDENTIFIER, .str result⟩

/-- The retagging of the bare words or / and / not done inline in Lexer.tokenize. -/
def word_token (result : String) : Token :=
  let token := identifier_token result
  if token.value = .str "or" then ⟨.OR, .str "or"⟩
  else if token.value = .str "and" then ⟨.AND, .str "and"⟩
  else if token.value = .str "not" then ⟨.NOT, .str "not"⟩
  else token

/-- Lexer.string: scan after the opening quote up to the next single quote.
The loop stops only at a quote or at end of input; any other character,
including a newline, is taken verbatim. -/
def scan_string (cs : List Char) : Except LexErr (String × List Char) :=
  let result := cs.takeWhile (fun ch => ch ≠ squote)
  match cs.dropWhile (fun ch => ch ≠ squote) with
  | q :: rest => if q = squote then .ok (⟨result⟩, rest) else .error .unterminatedString
  | [] => .error .unterminatedString

/-- Append one token in front of the remaining tokenization. -/
def cons_tok (tok : Token) (r : Except LexErr (List Token)) : Except LexErr (List Token) :=
  match r with
  | .error e => .error e
  | .ok ts => .ok (tok :: ts)

/-- The thirteen single-character tokens recognized by immediate dispatch in
Lexer.tokenize, in source order. -/
def SINGLE_TOKENS : List (Char × Token) :=
  [('+', ⟨.PLUS, .str "+"⟩), ('-', ⟨.MINUS, .str "-"⟩), ('*', ⟨.MULTIPLY, .str "*"⟩),
   ('/', ⟨.DIVIDE, .str "/"⟩), ('%', ⟨.MODULO, .str "%"⟩), ('(', ⟨.LPAREN, .str "("⟩),
   (')', ⟨.RPAREN, .str ")"⟩), (',', ⟨.COMMA, .str ","⟩), ('.', ⟨.DOT, .str "."⟩),
   ('{', ⟨.LBRACE, .str "\x7b"⟩), ('}', ⟨.RBRACE, .str "\x7d"⟩),
   ('?', ⟨.QUESTION, .str "?"⟩), (':', ⟨.COLON, .str ":"⟩)]

/-- Dispatch over the single-character table. -/
def single_char_token (c : Char) : Option Token :=
  (SINGLE_TOKENS.find? (fun kv => kv.1 == c)).map (fun kv => kv.2)

/-- The two-character lookahead dispatch of Lexer.tokenize, for the
characters following the single-character table in source order: a lone
ampersand or pipe is a lexical error, while lone exclamation, equals,
greater and less signs fall back to their one-character tokens. -/
def pair_char_step (c : Char) (cs : List Char) : Except LexErr (Token × List Char) :=
  if c = '&' then
    match cs with
    | '&' :: rest => .ok (⟨.AND, .str "&&"⟩, rest)
    | _ => .error (.unexpectedChar '&')
  else if c = '|' then
    match cs with
    | '|' :: rest => .ok (⟨.OR, .str "||"⟩, rest)
    | _ => .error (.unexpectedChar '|')
  else if c = '!' then
    match cs with
    | '=' :: rest => .ok (⟨.NEQ, .str "!="⟩, rest)
    | _ => .ok (⟨.NOT, .str "!"⟩, cs)
  else if c = '=' then
    match cs with
    | '=' :: rest => .ok (⟨.EQ, .str "=="⟩, rest)
    | _ => .ok (⟨.ASSIGN, .str "="⟩, cs)
  else if c = '>' then
    match cs with
    | '=' :: rest => .ok (⟨.GTE, .str ">="⟩, rest)
    | _ => .ok (⟨.GT, .str ">"⟩, cs)
  else if c = '<' then
    match cs with
    | '=' :: rest => .ok (⟨.LTE, .str "<="⟩, rest)
    | _ => .ok (⟨.LT, .str "<"⟩, cs)
  else .error (.unexpectedChar c)

/-- Recognition of one token at a non-space, non-comment position: the
branch dispatch of the Lexer.tokenize while-loop on the current character c
with remaining input cs, returning the recognized token and the rest of the
input after it, in the dispatch order of the source. -/
def tokenize_step (c : Char) (cs : List Char) : Except LexErr (Token × List Char) :=
  if pyIsDigit c then
    .ok (⟨.INTEGER, .int (digits_to_int ((c :: cs).takeWhile pyIsDigit))⟩,
      (c :: cs).dropWhile pyIsDigit)
  else if pyIsAlpha c then
    .ok (word_token ⟨(c :: cs).takeWhile is_ident_char⟩, (c :: cs).dropWhile is_ident_char)
  else if c = squote then
    match scan_string cs with
    | .error e => .error e
    | .ok (s, rest) => .ok (⟨.STRING, .str s⟩, rest)
  else
    match single_char_token c with
    | some tok => .ok (tok, cs)
    | Option.none => pair_char_step c cs

/-- The main scanning loop of Lexer.tokenize over the remaining characters:
skip whitespace and comments, otherwise recognize one token with
tokenize_step and continue after it.  Every iteration of the Python
while-loop consumes at least one character, so a fuel of one more than the
input length always suffices. -/
def tokenize_loop (fuel : Nat) (cs : List Char) : Except LexErr (List Token) :=
  match fuel, cs with
  | _, [] => .ok [eofTok]
  | 0, _ :: _ => .error .outOfFuel
  | fuel + 1, c :: cs =>
    if pyIsSpace c then tokenize_loop fuel (cs.dropWhile pyIsSpace)
    else if c = '#' then tokenize_loop fuel (cs.dropWhile (fun ch => ch ≠ '\n'))
    else
      match tokenize_step c cs with
      | .error e => .error e
      | .ok (tok, rest) => cons_tok tok (tokenize_loop fuel rest)

/-- Lexer.tokenize on a whole input text. -/
def tokenize (text : String) : Except LexErr (List Token) :=
  tokenize_loop (text.data.length + 1) text.data

/-- AST nodes: one constructor per node class of parser.py.  The body of a
FunctionDef is Option Ast because an empty brace pair leaves it None.  The
operator of a BinaryOp or LogicalOp is the token value string; the operator
of a UnaryOp or Comparison or BooleanOp is the whole token, as in the source. -/
inductive Ast where
  | Program (body : List Ast)
  | FunctionDef (name : Ast) (params : List Ast) (body : Option Ast)
  | Call (func : Ast) (args : List Ast)
  | BinaryOp (left : Ast) (operator : String) (right : Ast)
  | UnaryOp (operator : Token) (operand : Ast)
  | IfExpr (condition : Ast) (then_branch : Ast) (else_branch : Ast)
  | Literal (value : PyObj)
  | Identifier (name : String)
  | Lambda (params : List Ast) (body : Ast)
  | BooleanOp (left : Ast) (operator : Token) (right : Ast)
  | LogicalOp (left : Ast) (operator : String) (right : Ast)
  | Comparison (left : Ast) (operator : Token) (right : Ast)
  | Assignment (target : Ast) (value : Ast)
deriving Repr

/-- Errors raised by the parser, one constructor per raise site. -/
inductive ParseErr where
  | expected (token_type : TokTy) (got : TokTy)
  | expectedKey (key : String) (got : PyObj)
  | invalidFunctionName
  | expectedNameString (got : TokTy)
  | requiresArguments
  | unexpectedParamToken (got : TokTy)
  | unexpectedToken (got : TokTy)
  | expectedIdentifier (got : TokTy)
  | invalidAssignment
  | outOfFuel
deriving DecidableEq, Repr

/-- Parser state: the unread suffix of the token list.  The Python parser
keeps an index and only ever reads tokens[pos] and tokens[pos+1], yielding
Token(EOF, None) past the end. -/
def current_token : List Token → Token
  | [] => eofTok
  | t :: _ => t

/-- Parser.advance: step past the current token. -/
def advance (st : List Token) : List Token := st.tail

/-- Parser.peek: the token after the current one. -/
def peek : List Token → Token
  | _ :: t :: _ => t
  | _ => eofTok

/-- Parser.expect without a value constraint. -/
def expect (token_type : TokTy) (st : List Token) : Except ParseErr (List Token) :=
  if (current_token st).type = token_type then .ok (advance st)
  else .error (.expected token_type (current_token st).type)

/-- Parser.expect with a value constraint. -/
def expect_val (token_type : TokTy) (v : PyObj) (st : List Token) : Except ParseErr (List Token) :=
  if (current_token st).type = token_type ∧ (current_token st).value = v then .ok (advance st)
  else .error (.expected token_type (current_token st).type)

/-- String payload of a token value (operator tokens always carry a string). -/
def val_str : PyObj → String
  | .str s => s
  | _ => ""

/-- Parser.parse_identifier. -/
def parse_identifier (st : List Token) : Except ParseErr (Ast × List Token) :=
  let token := current_token st
  if token.type = .IDENTIFIER then .ok (.Identifier (val_str token.value), advance st)
  else .error (.expectedIdentifier token.type)

/-- Comparison-operator membership test used at two places in parser.py. -/
def is_cmp (t : TokTy) : Bool :=
  match t with
  | .GT | .LT | .GTE | .LTE | .EQ | .NEQ => true
  | _ => false

/-- Test for the logical operator tokens AND and OR. -/
def is_logic (t : TokTy) : Bool :=
  match t with
  | .AND | .OR => true
  | _ => false

/-- Test for the additive operator tokens. -/
def is_addop (t : TokTy) : Bool :=
  match t with
  | .PLUS | .MINUS => true
  | _ => false

/-- Test for the multiplicative operator tokens. -/
def is_mulop (t : TokTy) : Bool :=
  match t with
  | .MULTIPLY | .DIVIDE | .MODULO => true
  | _ => false

/-- Model of the Python str.isidentifier test on the ASCII fragment:
nonempty, first character a letter or underscore, rest alphanumeric or
underscore. -/
def pyIsIdentifier (s : String) : Bool :=
  match s.data with
  | [] => false
  | c :: rest => (pyIsAlpha c || c = '_') && rest.all (fun ch => pyIsAlnum ch || ch = '_')

mutual

/-- Parser.parse_program: loop over top-level statements until EOF,
dispatching Defun to function-definition parsing, accumulating the body. -/
def parse_program_loop (fuel : Nat) (body : List Ast) (st : List Token) :
    Except ParseErr (Ast × List Token) :=
  match fuel with
  | 0 => .error .outOfFuel
  | fuel + 1 =>
    if (current_token st).type ≠ .EOF then
      if (current_token st).type = .KEYWORD ∧ (current_token st).value = .str "Defun" then
        match parse_function_def fuel st with
        | .error e => .error e
        | .ok (d, st) => parse_program_loop fuel (body ++ [d]) st
      else
        match parse_expression fuel st with
        | .error e => .error e
        | .ok (e, st) => parse_program_loop fuel (body ++ [e]) st
    else .ok (.Program body, st)

/-- Parser.parse_function_def. -/
def parse_function_def (fuel : Nat) (st : List Token) : Except ParseErr (Ast × List Token) :=
  match fuel with
  | 0 => .error .outOfFuel
  | fuel + 1 =>
    match expect_val .KEYWORD (.str "Defun") st with
    | .error e => .error e
    | .ok st =>
    match expect .LBRACE st with
    | .error e => .error e
    | .ok st =>
    match parse_key_value_pair fuel "name" st with
    | .error e => .error e
    | .ok (nres, st) =>
    -- the name key-value branch always yields an .inl string
    let name := match nres with | some (.inl s) => s | _ => ""
    if name = "" ∨ pyIsIdentifier name = false then .error .invalidFunctionName
    else
    match expect .COMMA st with
    | .error e => .error e
    | .ok st =>
    match parse_key_value_pair fuel "arguments" st with
    | .error e => .error e
    | .ok (pres, st) =>
    match expect .RBRACE st with
    | .error e => .error e
    | .ok st =>
    match pres with
    | Option.none => .error .requiresArguments
    | some pr =>
      -- the arguments key-value branch always yields an .inr parameter list
      let params := match pr with | .inl _ => [] | .inr ps => ps
      if (current_token st).type = .LBRACE then
        match expect .RBRACE (advance st) with
        | .error e => .error e
        | .ok st => .ok (.FunctionDef (.Identifier name) params Option.none, st)
      else
        match parse_expression fuel st with
        | .error e => .error e
        | .ok (body, st) => .ok (.FunctionDef (.Identifier name) params (some body), st)

/-- Parser.parse_key_value_pair: returns the function name for key "name",
the parameter list for key "arguments", and None for any other key. -/
def parse_key_value_pair (fuel : Nat) (expected_key : String) (st : List Token) :
    Except ParseErr (Option (String ⊕ List Ast) × List Token) :=
  match fuel with
  | 0 => .error .outOfFuel
  | fuel + 1 =>
    let key_token := current_token st
    if key_token.type ≠ .STRING ∨ key_token.value ≠ .str expected_key then
      .error (.expectedKey expected_key key_token.value)
    else
    match expect .COLON (advance st) with
    | .error e => .error e
    | .ok st =>
      if expected_key = "name" then
        let name_token := current_token st
        if name_token.type ≠ .STRING then .error (.expectedNameString name_token.type)
        else .ok (some (.inl (val_str name_token.value)), advance st)
      else if expected_key = "arguments" then
        match parse_parameters fuel st with
        | .error e => .error e
        | .ok (ps, st) => .ok (some (.inr ps), st)
      else .ok (Option.none, st)

/-- Parser.parse_parameters: the empty list () returns at once, otherwise the
scanning loop runs and the trailing expect(RPAREN) applies on every exit. -/
def parse_parameters (fuel : Nat) (st : List Token) :
    Except ParseErr (List Ast × List Token) :=
  match fuel with
  | 0 => .error .outOfFuel
  | fuel + 1 =>
    match expect .LPAREN st with
    | .error e => .error e
    | .ok st =>
      if (current_token st).type = .RPAREN then .ok ([], advance st)
      else parse_parameters_loop fuel [] st

/-- The while-loop of Parser.parse_parameters.  On the break path the loop
itself consumes the RPAREN, and the expect(RPAREN) after the loop still runs
on both exits. -/
def parse_parameters_loop (fuel : Nat) (params : List Ast) (st : List Token) :
    Except ParseErr (List Ast × List Token) :=
  match fuel with
  | 0 => .error .outOfFuel
  | fuel + 1 =>
    if (current_token st).type = .IDENTIFIER then
      match parse_identifier st with
      | .error e => .error e
      | .ok (id, st) =>
        let params := params ++ [id]
        if (current_token st).type = .COMMA then
          parse_parameters_loop fuel params (advance st)
        else if (current_token st).type = .RPAREN then
          match expect .RPAREN (advance st) with
          | .error e => .error e
          | .ok st => .ok (params, st)
        else .error (.unexpectedParamToken (current_token st).type)
    else
      match expect .RPAREN st with
      | .error e => .error e
      | .ok st => .ok (params, st)

/-- Parser.parse_expression: assignment when an identifier is directly
followed by the assignment token, else a logical expression. -/
def parse_expression (fuel : Nat) (st : List Token) : Except ParseErr (Ast × List Token) :=
  match fuel with
  | 0 => .error .outOfFuel
  | fuel + 1 =>
    if (current_token st).type = .IDENTIFIER ∧ (peek st).type = .ASSIGN then
      parse_assignment fuel st
    else parse_logical_expression fuel st

/-- Parser.parse_assignment. -/
def parse_assignment (fuel : Nat) (st : List Token) : Except ParseErr (Ast × List Token) :=
  match fuel with
  | 0 => .error .outOfFuel
  | fuel + 1 =>
    match parse_identifier st with
    | .error e => .error e
    | .ok (left, st) =>
      if (current_token st).type = .ASSIGN then
        match parse_expression fuel (advance st) with
        | .error e => .error e
        | .ok (right, st) => .ok (.Assignment left right, st)
      else .error .invalidAssignment

/-- Parser.parse_logical_expression. -/
def parse_logical_expression (fuel : Nat) (st : List Token) :
    Except ParseErr (Ast × List Token) :=
  match fuel with
  | 0 => .error .outOfFuel
  | fuel + 1 =>
    match parse_comparison_expression fuel st with
    | .error e => .error e
    | .ok (left, st) => parse_logical_loop fuel left st

/-- The while-loop of parse_logical_expression over AND and OR tokens. -/
def parse_logical_loop (fuel : Nat) (left : Ast) (st : List Token) :
    Except ParseErr (Ast × List Token) :=
  match fuel with
  | 0 => .error .outOfFuel
  | fuel + 1 =>
    if is_logic (current_token st).type then
      let operator := val_str (current_token st).value
      match parse_comparison_expression fuel (advance st) with
      | .error e => .error e
      | .ok (right, st) => parse_logical_loop fuel (.BinaryOp left operator right) st
    else .ok (left, st)

/-- Parser.parse_comparison_expression. -/
def parse_comparison_expression (fuel : Nat) (st : List Token) :
    Except ParseErr (Ast × List Token) :=
  match fuel with
  | 0 => .error .outOfFuel
  | fuel + 1 =>
    match parse_arithmetic_expression fuel st with
    | .error e => .error e
    | .ok (left, st) => parse_comparison_loop fuel left st

/-- The while-loop of parse_comparison_expression over comparison tokens. -/
def parse_comparison_loop (fuel : Nat) (left : Ast) (st : List Token) :
    Except ParseErr (Ast × List Token) :=
  match fuel with
  | 0 => .error .outOfFuel
  | fuel + 1 =>
    if is_cmp (current_token st).type then
      let operator := val_str (current_token st).value
      match parse_arithmetic_expression fuel (advance st) with
      | .error e => .error e
      | .ok (right, st) => parse_comparison_loop fuel (.BinaryOp left operator right) st
    else .ok (left, st)

/-- Parser.parse_arithmetic_expression. -/
def parse_arithmetic_expression (fuel : Nat) (st : List Token) :
    Except ParseErr (Ast × List Token) :=
  match fuel with
  | 0 => .error .outOfFuel
  | fuel + 1 =>
    match parse_term fuel st with
    | .error e => .error e
    | .ok (left, st) => parse_arithmetic_loop fuel left st

/-- The while-loop of parse_arithmetic_expression over PLUS and MINUS. -/
def parse_arithmetic_loop (fuel : Nat) (left : Ast) (st : List Token) :
    Except ParseErr (Ast × List Token) :=
  match fuel with
  | 0 => .error .outOfFuel
  | fuel + 1 =>
    if is_addop (current_token st).type then
      let operator := val_str (current_token st).value
      match parse_term fuel (advance st) with
      | .error e => .error e
      | .ok (right, st) => parse_arithmetic_loop fuel (.BinaryOp left operator right) st
    else .ok (left, st)

/-- Parser.parse_term. -/
def parse_term (fuel : Nat) (st : List Token) : Except ParseErr (Ast × List Token) :=
  match fuel with
  | 0 => .error .outOfFuel
  | fuel + 1 =>
    match parse_factor fuel st with
    | .error e => .error e
    | .ok (left, st) => parse_term_loop fuel left st

/-- The while-loop of parse_term over MULTIPLY, DIVIDE and MODULO. -/
def parse_term_loop (fuel : Nat) (left : Ast) (st : List Token) :
    Except ParseErr (Ast × List Token) :=
  match fuel with
  | 0 => .error .outOfFuel
  | fuel + 1 =>
    if is_mulop (current_token st).type then
      let operator := val_str (current_token st).value
      match parse_factor fuel (advance st) with
      | .error e => .error e
      | .ok (right, st) => parse_term_loop fuel (.BinaryOp left operator right) st
    else .ok (left, st)

/-- Parser.parse_lambda. -/
def parse_lambda (fuel : Nat) (st : List Token) : Except ParseErr (Ast × List Token) :=
  match fuel with
  | 0 => .error .outOfFuel
  | fuel + 1 =>
    match expect_val .KEYWORD (.str "Lambd") st with
    | .error e => .error e
    | .ok st =>
    match parse_identifier st with
    | .error e => .error e
    | .ok (p, st) =>
    match parse_lambda_params fuel [p] st with
    | .error e => .error e
    | .ok (params, st) =>
    match expect .DOT st with
    | .error e => .error e
    | .ok st =>
    match parse_expression fuel st with
    | .error e => .error e
    | .ok (body, st) => .ok (.Lambda params body, st)

/-- The while-loop of parse_lambda over comma-separated parameters. -/
def parse_lambda_params (fuel : Nat) (params : List Ast) (st : List Token) :
    Except ParseErr (List Ast × List Token) :=
  match fuel with
  | 0 => .error .outOfFuel
  | fuel + 1 =>
    if (current_token st).type = .COMMA then
      match parse_identifier (advance st) with
      | .error e => .error e
      | .ok (p, st) => parse_lambda_params fuel (params ++ [p]) st
    else .ok (params, st)

/-- Parser.parse_factor. -/
def parse_factor (fuel : Nat) (st : List Token) : Except ParseErr (Ast × List Token) :=
  match fuel with
  | 0 => .error .outOfFuel
  | fuel + 1 =>
    let token := current_token st
    if token.type = .NOT then
      match parse_factor fuel (advance st) with
      | .error e => .error e
      | .ok (operand, st) => .ok (.UnaryOp token operand, st)
    else if token.type = .STRING then .ok (.Literal token.value, advance st)
    else if token.type = .INTEGER then .ok (.Literal token.value, advance st)
    else if token.type = .BOOLEAN then
      .ok (.Literal (.bool (decide (token.value = .str "True"))), advance st)
    else if token.type = .IDENTIFIER then
      let func_name := val_str token.value
      let st := advance st
      if (current_token st).type = .LPAREN then
        let st := advance st
        if (current_token st).type ≠ .RPAREN then
          match parse_call_args fuel [] st with
          | .error e => .error e
          | .ok (args, st) =>
            match expect .RPAREN st with
            | .error e => .error e
            | .ok st => .ok (.Call (.Identifier func_name) args, st)
        else
          match expect .RPAREN st with
          | .error e => .error e
          | .ok st => .ok (.Call (.Identifier func_name) [], st)
      else .ok (.Identifier func_name, st)
    else if token.type = .LPAREN then
      match parse_expression fuel (advance st) with
      | .error e => .error e
      | .ok (expr, st) =>
        if is_cmp (current_token st).type then
          let operator := current_token st
          match parse_expression fuel (advance st) with
          | .error e => .error e
          | .ok (right_expr, st) =>
            match expect .RPAREN st with
            | .error e => .error e
            | .ok st => .ok (.Comparison expr operator right_expr, st)
        else
          match expect .RPAREN st with
          | .error e => .error e
          | .ok st => .ok (expr, st)
    else if token.type = .KEYWORD ∧ token.value = .str "Lambd" then
      parse_lambda fuel st
    else .error (.unexpectedToken token.type)

/-- The while-True loop collecting call arguments inside parse_factor. -/
def parse_call_args (fuel : Nat) (args : List Ast) (st : List Token) :
    Except ParseErr (List Ast × List Token) :=
  match fuel with
  | 0 => .error .outOfFuel
  | fuel + 1 =>
    match parse_expression fuel st with
    | .error e => .error e
    | .ok (a, st) =>
      let args := args ++ [a]
      if (current_token st).type = .RPAREN then .ok (args, st)
      else
        match expect .COMMA st with
        | .error e => .error e
        | .ok st => parse_call_args fuel args st

end

/-- Parser.parse_program on a token list. -/
def parse_program (fuel : Nat) (st : List Token) : Except ParseErr (Ast × List Token) :=
  parse_program_loop fuel [] st

/-- Modelled from the spec: the interpreter module
(interpreter_logic/interpreter.py) is not present under src/, only its tests
and callers are; this evaluator follows spec section 4.3.  Runtime values are
integer, boolean, string, closure, or the None sentinel; a closure captures
the environment chain in effect when the lambda was evaluated, together with
its parameter names and body. -/
inductive Value where
  | int (n : Int)
  | bool (b : Bool)
  | str (s : String)
  | closure (env : List (List (String × Value))) (params : List String) (body : Ast)
  | none

/-- Environment: a chain of scopes, innermost first, outermost global. -/
abbrev Env := List (List (String × Value))

/-- Function registry: name to parameter names and optional body. -/
abbrev Registry := List (String × (List String × Option Ast))

/-- Modelled from the spec: the closed set of evaluation error kinds of
spec section 7 (lexing and parsing errors live in LexErr and ParseErr). -/
inductive EvalErr where
  | undefinedVariable (name : String)
  | divisionByZero
  | typeMismatch
  | arityMismatch
  | notCallable
  | outOfFuel
deriving DecidableEq, Repr

/-- Lookup walking outward from the innermost scope. -/
def lookupEnv : Env → String → Option Value
  | [], _ => Option.none
  | scope :: outer, x =>
    match scope.find? (fun kv => kv.1 == x) with
    | some kv => some kv.2
    | Option.none => lookupEnv outer x

/-- Bind a name in the current (innermost) scope, replacing any binding of
the same name there and shadowing outer ones. -/
def bind_current (name : String) (v : Value) : Env → Env
  | [] => [[(name, v)]]
  | scope :: outer => ((name, v) :: scope.filter (fun kv => kv.1 != name)) :: outer

/-- Modelled from the spec: truthiness used by the short-circuit operators —
a boolean is itself, integer zero is false and any non-zero integer true,
anything else is a type error (spec sections 4.3 and 9). -/
def truthy : Value → Except EvalErr Bool
  | .bool b => .ok b
  | .int n => .ok (decide (n ≠ 0))
  | _ => .error .typeMismatch

/-- Numeric view of a value: booleans are numeric with True = 1 and
False = 0 (the host model of the observed behavior — the factorial pattern
returns True from its base case and multiplies it by an integer). -/
def as_num : Value → Option Int
  | .int n => some n
  | .bool b => some (if b then 1 else 0)
  | _ => Option.none

/-- Modelled from the spec: strict binary operators — arithmetic on numeric
operands with floor division and division-by-zero errors, comparisons on
numeric-numeric or string-string operands, a type-mismatch error across
incompatible types (spec section 4.3). -/
def bin_strict (op : String) (l r : Value) : Except EvalErr Value :=
  match as_num l, as_num r with
  | some a, some b =>
    if op = "+" then .ok (.int (a + b))
    else if op = "-" then .ok (.int (a - b))
    else if op = "*" then .ok (.int (a * b))
    else if op = "/" then
      if b = 0 then .error .divisionByZero else .ok (.int (Int.fdiv a b))
    else if op = "%" then
      if b = 0 then .error .divisionByZero else .ok (.int (Int.fmod a b))
    else if op = "==" then .ok (.bool (decide (a = b)))
    else if op = "!=" then .ok (.bool (decide (a ≠ b)))
    else if op = "<" then .ok (.bool (decide (a < b)))
    else if op = "<=" then .ok (.bool (decide (a ≤ b)))
    else if op = ">" then .ok (.bool (decide (b < a)))
    else if op = ">=" then .ok (.bool (decide (b ≤ a)))
    else .error .typeMismatch
  | _, _ =>
    match l, r with
    | .str a, .str b =>
      if op = "+" then .ok (.str (a ++ b))
      else if op = "==" then .ok (.bool (a == b))
      else if op = "!=" then .ok (.bool (a != b))
      else if op = "<" then .ok (.bool (decide (a < b)))
      else if op = "<=" then .ok (.bool (decide (a ≤ b)))
      else if op = ">" then .ok (.bool (decide (b < a)))
      else if op = ">=" then .ok (.bool (decide (b ≤ a)))
      else .error .typeMismatch
    | _, _ => .error .typeMismatch

/-- Name of a parameter node (parameters are Identifier nodes). -/
def param_name : Ast → String
  | .Identifier n => n
  | _ => ""

/-- Literal payloads become the corresponding runtime value. -/
def lit_value : PyObj → Value
  | .int n => .int n
  | .str s => .str s
  | .bool b => .bool b
  | .none => .none

mutual

/-- Modelled from the spec: the tree-walking evaluator of spec section 4.3.
Evaluation threads the environment and the function registry and returns the
value of the node; fuel bounds the depth of language-level recursion. -/
def eval (fuel : Nat) (reg : Registry) (env : Env) : Ast → Except EvalErr (Value × Env × Registry)
  | .Program body =>
    match fuel with
    | 0 => .error .outOfFuel
    | fuel + 1 => eval_statements fuel reg env Value.none body
  | .Literal v => .ok (lit_value v, env, reg)
  | .Identifier name =>
    match lookupEnv env name with
    | some v => .ok (v, env, reg)
    | Option.none => .error (.undefinedVariable name)
  | .BinaryOp l op r =>
    match fuel with
    | 0 => .error .outOfFuel
    | fuel + 1 =>
      if op = "&&" ∨ op = "and" then
        match eval fuel reg env l with
        | .error e => .error e
        | .ok (lv, env, reg) =>
          match truthy lv with
          | .error e => .error e
          | .ok t => if t then eval fuel reg env r else .ok (lv, env, reg)
      else if op = "||" ∨ op = "or" then
        match eval fuel reg env l with
        | .error e => .error e
        | .ok (lv, env, reg) =>
          match truthy lv with
          | .error e => .error e
          | .ok t => if t then .ok (lv, env, reg) else eval fuel reg env r
      else
        match eval fuel reg env l with
        | .error e => .error e
        | .ok (lv, env, reg) =>
          match eval fuel reg env r with
          | .error e => .error e
          | .ok (rv, env, reg) =>
            match bin_strict op lv rv with
            | .error e => .error e
            | .ok v => .ok (v, env, reg)
  | .UnaryOp operator operand =>
    match fuel with
    | 0 => .error .outOfFuel
    | fuel + 1 =>
      if operator.type = .NOT then
        match eval fuel reg env operand with
        | .error e => .error e
        | .ok (v, env, reg) =>
          match truthy v with
          | .error e => .error e
          | .ok t => .ok (.bool (!t), env, reg)
      else .error .typeMismatch
  | .IfExpr c t e =>
    match fuel with
    | 0 => .error .outOfFuel
    | fuel + 1 =>
      match eval fuel reg env c with
      | .error e2 => .error e2
      | .ok (cv, env, reg) =>
        match truthy cv with
        | .error e2 => .error e2
        | .ok b => if b then eval fuel reg env t else eval fuel reg env e
  | .Lambda params body => .ok (.closure env (params.map param_name) body, env, reg)
  | .Assignment target value =>
    match fuel with
    | 0 => .error .outOfFuel
    | fuel + 1 =>
      match target with
      | .Identifier name =>
        match eval fuel reg env value with
        | .error e => .error e
        | .ok (v, env, reg) => .ok (v, bind_current name v env, reg)
      | _ => .error .typeMismatch
  | .FunctionDef nameNode params body =>
    -- the name is registered before any call evaluates the body
    .ok (Value.none, env, (param_name nameNode, (params.map param_name, body)) :: reg)
  | .Call func args =>
    match fuel with
    | 0 => .error .outOfFuel
    | fuel + 1 =>
      match func with
      | .Identifier fname =>
        match eval_args fuel reg env [] args with
        | .error e => .error e
        | .ok (argVals, env, reg) =>
          match reg.find? (fun kv => kv.1 == fname) with
          | some entry =>
            let ps := entry.2.1
            if argVals.length ≠ ps.length then .error .arityMismatch
            else
              -- a fresh child scope of the global (outermost) scope
              let callEnv : Env := [ps.zip argVals, env.getLastD []]
              match entry.2.2 with
              | Option.none => .ok (Value.none, env, reg)
              | some body =>
                match eval fuel reg callEnv body with
                | .error e => .error e
                | .ok (v, _, _) => .ok (v, env, reg)
          | Option.none =>
            match lookupEnv env fname with
            | Option.none => .error (.undefinedVariable fname)
            | some callee =>
              match apply_args fuel reg callee argVals with
              | .error e => .error e
              | .ok v => .ok (v, env, reg)
      | _ => .error .notCallable
  | .Comparison _ _ _ => .error .typeMismatch
  | .LogicalOp _ _ _ => .error .typeMismatch
  | .BooleanOp _ _ _ => .error .typeMismatch

/-- Evaluate the statements of a program in order, keeping the last value. -/
def eval_statements (fuel : Nat) (reg : Registry) (env : Env) (last : Value) :
    List Ast → Except EvalErr (Value × Env × Registry)
  | [] => .ok (last, env, reg)
  | s :: rest =>
    match fuel with
    | 0 => .error .outOfFuel
    | fuel + 1 =>
      match eval fuel reg env s with
      | .error e => .error e
      | .ok (v, env, reg) => eval_statements fuel reg env v rest

/-- Evaluate call arguments left to right in the caller environment. -/
def eval_args (fuel : Nat) (reg : Registry) (env : Env) (acc : List Value) :
    List Ast → Except EvalErr (List Value × Env × Registry)
  | [] => .ok (acc, env, reg)
  | a :: rest =>
    match fuel with
    | 0 => .error .outOfFuel
    | fuel + 1 =>
      match eval fuel reg env a with
      | .error e => .error e
      | .ok (v, env, reg) => eval_args fuel reg env (acc ++ [v]) rest

/-- Modelled from the spec: closure invocation one argument at a time — bind
the first remaining parameter in a child scope of the captured environment;
if parameters remain the result is a new closure over the same body, else
the body is evaluated (spec section 4.3, currying). -/
def apply_closure (fuel : Nat) (reg : Registry) (callee arg : Value) : Except EvalErr Value :=
  match fuel with
  | 0 => .error .outOfFuel
  | fuel + 1 =>
    match callee with
    | .closure cenv (p :: ps) body =>
      let env2 : Env := [(p, arg)] :: cenv
      match ps with
      | [] =>
        match eval fuel reg env2 body with
        | .error e => .error e
        | .ok (v, _, _) => .ok v
      | _ :: _ => .ok (.closure env2 ps body)
    | _ => .error .notCallable

/-- Apply a callable to a list of already-evaluated arguments in order. -/
def apply_args (fuel : Nat) (reg : Registry) (callee : Value) :
    List Value → Except EvalErr Value
  | [] => .ok callee
  | a :: rest =>
    match fuel with
    | 0 => .error .outOfFuel
    | fuel + 1 =>
      match apply_closure fuel reg callee a with
      | .error e => .error e
      | .ok v => apply_args fuel reg v rest

end

/-- Pipeline error: lexing, parsing, or evaluation. -/
inductive Err where
  | lex (e : LexErr)
  | parse (e : ParseErr)
  | eval (e : EvalErr)

/-- Run the whole pipeline on a source text in a fresh session: empty
registry and an environment with one empty global scope. -/
def run_program (fuel : Nat) (text : String) : Except Err Value :=
  match tokenize text with
  | .error e => .error (.lex e)
  | .ok toks =>
    match parse_program fuel toks with
    | .error e => .error (.parse e)
    | .ok (prog, _) =>
      match eval fuel [] [[]] prog with
      | .error e => .error (.eval e)
      | .ok (v, _, _) => .ok v

/-- Tokenize and parse a source text, a convenience composition of the two
front-end stages. -/
def pipeline_parse (fuel : Nat) (text : String) : Except Err (Ast × List Token) :=
  match tokenize text with
  | .error e => .error (.lex e)
  | .ok toks =>
    match parse_program fuel toks with
    | .error e => .error (.parse e)
    | .ok r => .ok r

/-- The six comparison-operator tokens produced by the lexer. -/
def cmp_tokens : List Token :=
  [⟨.EQ, .str "=="⟩, ⟨.NEQ, .str "!="⟩, ⟨.LT, .str "<"⟩,
   ⟨.LTE, .str "<="⟩, ⟨.GT, .str ">"⟩, ⟨.GTE, .str ">="⟩]

/-- Token list of a parameter tuple body: identifiers separated by commas,
with or without a trailing comma before the closing parenthesis. -/
def params_toks : List String → Bool → List Token
  | [], _ => []
  | [x], trailing => ⟨.IDENTIFIER, .str x⟩ :: (if trailing then [⟨.COMMA, .str ","⟩] else [])
  | x :: xs, trailing => ⟨.IDENTIFIER, .str x⟩ :: ⟨.COMMA, .str ","⟩ :: params_toks xs trailing

/-- Tokens following the parameter tuple in the canonical Defun shape: the
closing parenthesis, the closing brace of the header, and an empty brace
pair as the function body. -/
def c5_rest : List Token :=
  [⟨.RPAREN, .str ")"⟩, ⟨.RBRACE, .str "\x7d"⟩, ⟨.LBRACE, .str "\x7b"⟩,
   ⟨.RBRACE, .str "\x7d"⟩, eofTok]

/-- Token list of a whole Defun statement with function name f, the given
parameter names, and an empty-brace body. -/
def defun_toks (ids : List String) (trailing : Bool) : List Token :=
  [⟨.KEYWORD, .str "Defun"⟩, ⟨.LBRACE, .str "\x7b"⟩, ⟨.STRING, .str "name"⟩,
   ⟨.COLON, .str ":"⟩, ⟨.STRING, .str "f"⟩, ⟨.COMMA, .str ","⟩,
   ⟨.STRING, .str "arguments"⟩, ⟨.COLON, .str ":"⟩, ⟨.LPAREN, .str "("⟩] ++
  params_toks ids trailing ++ c5_rest

/-- The body AST of the curried addition lambda. -/
def plus_ast : Ast := .BinaryOp (.Identifier "x") "+" (.Identifier "y")

/-- The inner lambda of the currying test. -/
def inner_lam : Ast := .Lambda [.Identifier "y"] plus_ast

/-- The outer lambda of the currying test. -/
def outer_lam : Ast := .Lambda [.Identifier "x"] inner_lam

mutual

/-- No Comparison, LogicalOp or BooleanOp node occurs in the tree. -/
def cleanA : Ast → Bool
  | .Program body => cleanL body
  | .FunctionDef n ps b => cleanA n && cleanL ps && cleanO b
  | .Call f as => cleanA f && cleanL as
  | .BinaryOp l _ r => cleanA l && cleanA r
  | .UnaryOp _ o => cleanA o
  | .IfExpr c t e => cleanA c && cleanA t && cleanA e
  | .Literal _ => true
  | .Identifier _ => true
  | .Lambda ps b => cleanL ps && cleanA b
  | .BooleanOp _ _ _ => false
  | .LogicalOp _ _ _ => false
  | .Comparison _ _ _ => false
  | .Assignment t v => cleanA t && cleanA v

/-- cleanA on every element of a list. -/
def cleanL : List Ast → Bool
  | [] => true
  | a :: rest => cleanA a && cleanL rest

/-- cleanA on an optional node. -/
def cleanO : Option Ast → Bool
  | Option.none => true
  | some a => cleanA a

end

/-- The induction package: cleanness statements for every parsing function
at a given fuel. -/
def CleanStmts (fuel : Nat) : Prop :=
  (∀ st a st2, parse_factor fuel st = .ok (a, st2) → cleanA a = true) ∧
  (∀ left st a st2, cleanA left = true →
    parse_term_loop fuel left st = .ok (a, st2) → cleanA a = true) ∧
  (∀ st a st2, parse_term fuel st = .ok (a, st2) → cleanA a = true) ∧
  (∀ left st a st2, cleanA left = true →
    parse_arithmetic_loop fuel left st = .ok (a, st2) → cleanA a = true) ∧
  (∀ st a st2, parse_arithmetic_expression fuel st = .ok (a, st2) → cleanA a = true) ∧
  (∀ left st a st2, cleanA left = true →
    parse_comparison_loop fuel left st = .ok (a, st2) → cleanA a = true) ∧
  (∀ st a st2, parse_comparison_expression fuel st = .ok (a, st2) → cleanA a = true) ∧
  (∀ left st a st2, cleanA left = true →
    parse_logical_loop fuel left st = .ok (a, st2) → cleanA a = true) ∧
  (∀ st a st2, parse_logical_expression fuel st = .ok (a, st2) → cleanA a = true) ∧
  (∀ st a st2, parse_expression fuel st = .ok (a, st2) → cleanA a = true) ∧
  (∀ st a st2, parse_assignment fuel st = .ok (a, st2) → cleanA a = true) ∧
  (∀ st a st2, parse_lambda fuel st = .ok (a, st2) → cleanA a = true) ∧
  (∀ acc st ps st2, cleanL acc = true →
    parse_lambda_params fuel acc st = .ok (ps, st2) → cleanL ps = true) ∧
  (∀ acc st args st2, cleanL acc = true →
    parse_call_args fuel acc st = .ok (args, st2) → cleanL args = true) ∧
  (∀ st ps st2, parse_parameters fuel st = .ok (ps, st2) → cleanL ps = true) ∧
  (∀ acc st ps st2, cleanL acc = true →
    parse_parameters_loop fuel acc st = .ok (ps, st2) → cleanL ps = true) ∧
  (∀ key st res st2, parse_key_value_pair fuel key st = .ok (res, st2) →
    ∀ ps, res = some (Sum.inr ps) → cleanL ps = true) ∧
  (∀ st a st2, parse_function_def fuel st = .ok (a, st2) → cleanA a = true) ∧
  (∀ acc st p st2, cleanL acc = true →
    parse_program_loop fuel acc st = .ok (p, st2) → cleanA p = true)

example : tokenize "" = .ok [eofTok] := rfl

example : tokenize "123 456" =
    .ok [⟨.INTEGER, .int 123⟩, ⟨.INTEGER, .int 456⟩, eofTok] := rfl

example : tokenize "x == 10" =
    .ok [⟨.IDENTIFIER, .str "x"⟩, ⟨.EQ, .str "=="⟩, ⟨.INTEGER, .int 10⟩, eofTok] := rfl

example : tokenize "Defun True False" =
    .ok [⟨.KEYWORD, .str "Defun"⟩, ⟨.BOOLEAN, .str "True"⟩, ⟨.BOOLEAN, .str "False"⟩, eofTok] := rfl

example : tokenize "&& || !" =
    .ok [⟨.AND, .str "&&"⟩, ⟨.OR, .str "||"⟩, ⟨.NOT, .str "!"⟩, eofTok] := rfl

example : tokenize "# this is a comment\n123 # another comment\n456" =
    .ok [⟨.INTEGER, .int 123⟩, ⟨.INTEGER, .int 456⟩, eofTok] := rfl

example : tokenize "~" = .error (.unexpectedChar '~') := rfl

example : parse_program 30 [⟨.INTEGER, .int 10⟩, ⟨.MINUS, .str "-"⟩, ⟨.INTEGER, .int 3⟩, eofTok] =
    .ok (.Program [.BinaryOp (.Literal (.int 10)) "-" (.Literal (.int 3))], [eofTok]) := rfl

example :
    (match tokenize "(2 + 3) * (5 - 2)" with
     | .ok ts => parse_program 30 ts
     | .error _ => .error .outOfFuel) =
    .ok (.Program [.BinaryOp
      (.BinaryOp (.Literal (.int 2)) "+" (.Literal (.int 3))) "*"
      (.BinaryOp (.Literal (.int 5)) "-" (.Literal (.int 2)))], [eofTok]) := rfl

example :
    (match tokenize "x = 10" with
     | .ok ts => parse_program 30 ts
     | .error _ => .error .outOfFuel) =
    .ok (.Program [.Assignment (.Identifier "x") (.Literal (.int 10))], [eofTok]) := rfl

example : run_program 50 "10 - 3" = .ok (.int 7) := rfl

example : run_program 50 "(2 + 3) * (5 - 2)" = .ok (.int 15) := rfl

example : run_program 50 "(4 > 5) || (3 < 5)" = .ok (.bool true) := rfl

example : run_program 50 "Defun \x7b'name': 'double', 'arguments': (x,)\x7d x * 2 double(4)" =
    .ok (.int 8) := rfl

example : run_program 50 "x + 5" = .error (.eval (.undefinedVariable "x")) := rfl

theorem current_token_cons (t : Token) (ts : List Token) : current_token (t :: ts) = t := rfl

theorem advance_cons (t : Token) (ts : List Token) : advance (t :: ts) = ts := rfl

theorem current_params (x : String) (xs : List String) (b : Bool) (r : List Token) :
    current_token (params_toks (x :: xs) b ++ r) = ⟨.IDENTIFIER, .str x⟩ := by
  cases xs <;> rfl

/-- Without a trailing comma, the parameter loop itself consumes the closing
parenthesis on its break path, so the expect call after the loop meets the
RBRACE of the Defun header and fails. -/
theorem loop_no_trailing (ids : List String) (hne : ids ≠ []) :
    ∀ (k : Nat) (acc : List Ast),
    parse_parameters_loop (k + ids.length + 1) acc (params_toks ids false ++ c5_rest)
      = .error (.expected .RPAREN .RBRACE) := by
  induction ids with
  | nil => exact absurd rfl hne
  | cons x xs ih =>
    intro k acc
    cases xs with
    | nil => rfl
    | cons y ys =>
      have h := ih (by simp) k (acc ++ [.Identifier x])
      simpa [parse_parameters_loop, params_toks, parse_identifier, current_token, advance,
        val_str] using h

/-- With a trailing comma the loop exits through its else branch with the
closing parenthesis still unread, and the expect call after the loop
consumes it. -/
theorem loop_trailing (ids : List String) (hne : ids ≠ []) :
    ∀ (k : Nat) (acc : List Ast),
    parse_parameters_loop (k + ids.length + 1) acc (params_toks ids true ++ c5_rest)
      = .ok (acc ++ ids.map Ast.Identifier,
          [⟨.RBRACE, .str "\x7d"⟩, ⟨.LBRACE, .str "\x7b"⟩, ⟨.RBRACE, .str "\x7d"⟩, eofTok]) := by
  induction ids with
  | nil => exact absurd rfl hne
  | cons x xs ih =>
    intro k acc
    cases xs with
    | nil => rfl
    | cons y ys =>
      have h := ih (by simp) k (acc ++ [.Identifier x])
      simpa [parse_parameters_loop, params_toks, parse_identifier, current_token, advance,
        val_str] using h

/-- A non-empty parameter list without a trailing comma makes the whole
function definition fail at the expect after the parameter loop. -/
theorem fdef_no_trailing (ids : List String) (hne : ids ≠ []) (k : Nat) :
    parse_function_def (k + ids.length + 20) (defun_toks ids false)
      = .error (.expected .RPAREN .RBRACE) := by
  obtain ⟨x, xs, rfl⟩ : ∃ y ys, ids = y :: ys := by
    cases ids with
    | nil => exact absurd rfl hne
    | cons y ys => exact ⟨y, ys, rfl⟩
  have e20 : ∀ m : Nat, m + 20 = m + 19 + 1 := fun _ => rfl
  have e19 : ∀ m : Nat, m + 19 = m + 18 + 1 := fun _ => rfl
  have e18 : ∀ m : Nat, m + 18 = m + 17 + 1 := fun _ => rfl
  have e17 : ∀ m : Nat, m + 17 = m + 16 + 1 := fun _ => rfl
  have hf : pyIsAlpha 'f' = true := by decide
  have hp := loop_no_trailing (x :: xs) hne (k + 16) []
  simp only [List.length_cons] at hp
  rw [show k + 16 + (xs.length + 1) + 1 = k + (xs.length + 1) + 16 + 1 from by omega] at hp
  simp [defun_toks, e20, e19, e18, e17, parse_function_def, parse_key_value_pair,
    parse_parameters, expect, expect_val, current_token_cons, current_params, advance_cons,
    val_str, pyIsIdentifier, hf, hp]

/-- With a trailing comma (or an empty tuple) the function definition
parses, producing the declared parameters in order. -/
theorem fdef_trailing (ids : List String) (k : Nat) :
    parse_function_def (k + ids.length + 20) (defun_toks ids true)
      = .ok (.FunctionDef (.Identifier "f") (ids.map Ast.Identifier) Option.none, [eofTok]) := by
  have e20 : ∀ m : Nat, m + 20 = m + 19 + 1 := fun _ => rfl
  have e19 : ∀ m : Nat, m + 19 = m + 18 + 1 := fun _ => rfl
  have e18 : ∀ m : Nat, m + 18 = m + 17 + 1 := fun _ => rfl
  have e17 : ∀ m : Nat, m + 17 = m + 16 + 1 := fun _ => rfl
  have hf : pyIsAlpha 'f' = true := by decide
  cases ids with
  | nil =>
    simp [defun_toks, params_toks, c5_rest, e20, e19, e18, e17, parse_function_def,
      parse_key_value_pair, parse_parameters, expect, expect_val, current_token_cons,
      advance_cons, val_str, pyIsIdentifier, hf]
  | cons x xs =>
    have hp := loop_trailing (x :: xs) (by simp) (k + 16) []
    simp only [List.length_cons] at hp
    rw [show k + 16 + (xs.length + 1) + 1 = k + (xs.length + 1) + 16 + 1 from by omega] at hp
    simp [defun_toks, e20, e19, e18, e17, parse_function_def, parse_key_value_pair,
      parse_parameters, expect, expect_val, current_token_cons, current_params, advance_cons,
      val_str, pyIsIdentifier, hf, hp]

/-- C1: in a fresh session, the recursive factorial program evaluates to
120 — the function name is already in the registry when the body runs, so
the body can call factorial by name; the two companion facts show that the
or operator is value-returning short-circuit evaluation: a truthy left
operand is returned without touching the right operand (whose evaluation
would fail on an undefined name), and integer 0 counts as false with the
result being the value of the operand evaluated last. -/
theorem C1_recursive_factorial :
    run_program 200
      "Defun \x7b'name': 'factorial', 'arguments': (n,)\x7d (n == 0) || (n * factorial(n - 1)) factorial(5)"
      = .ok (.int 120) ∧
    run_program 50 "1 || boom(1)" = .ok (.int 1) ∧
    run_program 50 "(0) || (7)" = .ok (.int 7) := by
  refine ⟨?_, rfl, rfl⟩
  set_option maxRecDepth 100000 in rfl

/-- C2: the curried lambda parses to nested Lambda nodes; a lambda always
evaluates to a closure capturing exactly the environment in effect at that
point (lexical scoping, stated for every environment); applying the outer
closure to 3 yields a further closure (a valid callable intermediate
value) whose captured chain holds the binding of x, applying that to
5 yields 8, and folding both arguments over the closure in one go gives the
same result (currying law). -/
theorem C2_lambda_currying :
    pipeline_parse 50 "(Lambd x. (Lambd y. (x + y))) (3) (5)"
      = .ok (.Program [outer_lam, .Literal (.int 3), .Literal (.int 5)], [eofTok]) ∧
    (∀ (fuel : Nat) (reg : Registry) (env : Env) (ps : List Ast) (b : Ast),
      eval fuel reg env (.Lambda ps b) = .ok (.closure env (ps.map param_name) b, env, reg)) ∧
    eval 50 [] [[]] outer_lam = .ok (.closure [[]] ["x"] inner_lam, [[]], []) ∧
    apply_closure 50 [] (.closure [[]] ["x"] inner_lam) (.int 3)
      = .ok (.closure [[("x", .int 3)], []] ["y"] plus_ast) ∧
    apply_closure 50 [] (.closure [[("x", .int 3)], []] ["y"] plus_ast) (.int 5)
      = .ok (.int 8) ∧
    apply_args 50 [] (.closure [[]] ["x"] inner_lam) [.int 3, .int 5] = .ok (.int 8) := by
  refine ⟨?_, ?_, rfl, rfl, rfl, rfl⟩
  · set_option maxRecDepth 100000 in rfl
  · intro fuel reg env ps b
    simp [eval]

/-- C3 counterexample: parsing the token sequence of 1 == 2 == 3, with two
comparison operators and no parenthesized grouping, does produce a
left-associated chain of two comparison operations within one comparison
expression, contradicting the claim that comparisons do not chain at this
level. -/
theorem C3_counterexample :
    parse_program 30 [⟨.INTEGER, .int 1⟩, ⟨.EQ, .str "=="⟩, ⟨.INTEGER, .int 2⟩,
        ⟨.EQ, .str "=="⟩, ⟨.INTEGER, .int 3⟩, eofTok]
      = .ok (.Program [.BinaryOp
          (.BinaryOp (.Literal (.int 1)) "==" (.Literal (.int 2))) "=="
          (.Literal (.int 3))], [eofTok]) := rfl

/-- C3 amended: at the comparison level the parser accepts an arithmetic
expression followed by any number of comparison-operator/arithmetic pairs,
left-associated — for every pair of comparison operators OP1, OP2 the
sequence a OP1 b OP2 c parses as (a OP1 b) OP2 c within one comparison
expression. -/
theorem C3_comparison_chains (a b c : Int) (t1 t2 : Token)
    (h1 : t1 ∈ cmp_tokens) (h2 : t2 ∈ cmp_tokens) :
    parse_program 30 [⟨.INTEGER, .int a⟩, t1, ⟨.INTEGER, .int b⟩, t2, ⟨.INTEGER, .int c⟩, eofTok]
      = .ok (.Program [.BinaryOp
          (.BinaryOp (.Literal (.int a)) (val_str t1.value) (.Literal (.int b)))
          (val_str t2.value) (.Literal (.int c))], [eofTok]) := by
  fin_cases h1 <;> fin_cases h2 <;> rfl

/-- C3 witness: the amended chaining theorem applied at 1 == 2 == 3. -/
theorem C3_comparison_chains_witness :
    parse_program 30 [⟨.INTEGER, .int 1⟩, ⟨.EQ, .str "=="⟩, ⟨.INTEGER, .int 2⟩,
        ⟨.EQ, .str "=="⟩, ⟨.INTEGER, .int 3⟩, eofTok]
      = .ok (.Program [.BinaryOp
          (.BinaryOp (.Literal (.int 1)) "==" (.Literal (.int 2))) "=="
          (.Literal (.int 3))], [eofTok]) :=
  C3_comparison_chains 1 2 3 ⟨.EQ, .str "=="⟩ ⟨.EQ, .str "=="⟩ (by decide) (by decide)

/-- C4: the scanning loop of Lexer.string stops only at a single quote or
at end of input, so a string literal written across a newline is accepted
and its STRING token value spans the line terminator, contrary to the
claim (and to the docstring of the function itself); only the end-of-input
case raises the unterminated-string error. -/
theorem C4_string_spans_newline :
    tokenize "'a\nb'" = .ok [⟨.STRING, .str "a\nb"⟩, eofTok] ∧
    tokenize "'ab" = .error .unterminatedString := ⟨rfl, rfl⟩

/-- C5: a Defun whose non-empty parameter tuple lacks the trailing comma
fails — the loop inside parse_parameters consumes the closing parenthesis
and the expect(RPAREN) after the loop meets the RBRACE of the header —
while the same tuple with a trailing comma parses to the declared
parameters, and the empty tuple is accepted directly. -/
theorem C5_trailing_comma_required :
    (∀ (ids : List String) (k : Nat), ids ≠ [] →
      parse_function_def (k + ids.length + 20) (defun_toks ids false)
        = .error (.expected .RPAREN .RBRACE)) ∧
    (∀ (ids : List String) (k : Nat),
      parse_function_def (k + ids.length + 20) (defun_toks ids true)
        = .ok (.FunctionDef (.Identifier "f") (ids.map Ast.Identifier) Option.none, [eofTok])) ∧
    (∀ (k : Nat) (ts : List Token),
      parse_parameters (k + 1) (⟨.LPAREN, .str "("⟩ :: ⟨.RPAREN, .str ")"⟩ :: ts)
        = .ok ([], ts)) := by
  refine ⟨fun ids k h => fdef_no_trailing ids h k, fun ids k => fdef_trailing ids k,
    fun k ts => rfl⟩

/-- C5 witness: the trailing-comma theorem applied to the two-parameter
tuples (x, y) and (x, y,) and to the empty tuple. -/
theorem C5_trailing_comma_required_witness :
    parse_function_def (0 + 2 + 20) (defun_toks ["x", "y"] false)
      = .error (.expected .RPAREN .RBRACE) ∧
    parse_function_def (0 + 2 + 20) (defun_toks ["x", "y"] true)
      = .ok (.FunctionDef (.Identifier "f") [.Identifier "x", .Identifier "y"]
          Option.none, [eofTok]) ∧
    parse_parameters (0 + 1) (⟨.LPAREN, .str "("⟩ :: ⟨.RPAREN, .str ")"⟩ :: [eofTok])
      = .ok ([], [eofTok]) :=
  ⟨C5_trailing_comma_required.1 ["x", "y"] 0 (by decide),
   C5_trailing_comma_required.2.1 ["x", "y"] 0,
   C5_trailing_comma_required.2.2 0 [eofTok]⟩

/-- Any successful parse_function_def yields a FunctionDef whose name is a
non-empty valid identifier spelling and which carries a parameter list. -/
theorem fdef_ok_shape : ∀ (fuel : Nat) (st : List Token) (node : Ast) (st2 : List Token),
    parse_function_def fuel st = .ok (node, st2) →
    ∃ name params body, node = .FunctionDef (.Identifier name) params body ∧
      name ≠ "" ∧ pyIsIdentifier name = true := by
  intro fuel st node st2 h
  match fuel with
  | 0 => simp [parse_function_def] at h
  | fuel + 1 =>
    simp only [parse_function_def] at h
    repeat' split at h
    all_goals try exact Except.noConfusion h
    all_goals cases h
    all_goals refine ⟨_, _, _, rfl, ?_, ?_⟩
    all_goals simp_all [not_or]

/-- A name value that is not a valid identifier spelling is rejected. -/
theorem fdef_bad_name (s : String) (ts : List Token) (k : Nat)
    (h : pyIsIdentifier s = false) :
    parse_function_def (k + 3)
      ([⟨.KEYWORD, .str "Defun"⟩, ⟨.LBRACE, .str "\x7b"⟩, ⟨.STRING, .str "name"⟩,
        ⟨.COLON, .str ":"⟩, ⟨.STRING, .str s⟩] ++ ts)
      = .error .invalidFunctionName := by
  have e3 : ∀ m : Nat, m + 3 = m + 2 + 1 := fun _ => rfl
  have e2 : ∀ m : Nat, m + 2 = m + 1 + 1 := fun _ => rfl
  simp [e3, e2, parse_function_def, parse_key_value_pair, expect, expect_val,
    current_token_cons, advance_cons, val_str, h]

/-- An absent name value (the next token is not a string) is rejected. -/
theorem fdef_missing_name_value (ts : List Token) (k : Nat) :
    parse_function_def (k + 3)
      ([⟨.KEYWORD, .str "Defun"⟩, ⟨.LBRACE, .str "\x7b"⟩, ⟨.STRING, .str "name"⟩,
        ⟨.COLON, .str ":"⟩, ⟨.COMMA, .str ","⟩] ++ ts)
      = .error (.expectedNameString .COMMA) := by
  have e3 : ∀ m : Nat, m + 3 = m + 2 + 1 := fun _ => rfl
  have e2 : ∀ m : Nat, m + 2 = m + 1 + 1 := fun _ => rfl
  simp [e3, e2, parse_function_def, parse_key_value_pair, expect, expect_val,
    current_token_cons, advance_cons, val_str]

/-- A header that ends after the name (no comma, no arguments pair) is
rejected at the expect(COMMA). -/
theorem fdef_missing_comma (ts : List Token) (k : Nat) :
    parse_function_def (k + 3)
      ([⟨.KEYWORD, .str "Defun"⟩, ⟨.LBRACE, .str "\x7b"⟩, ⟨.STRING, .str "name"⟩,
        ⟨.COLON, .str ":"⟩, ⟨.STRING, .str "f"⟩, ⟨.RBRACE, .str "\x7d"⟩] ++ ts)
      = .error (.expected .COMMA .RBRACE) := by
  have e3 : ∀ m : Nat, m + 3 = m + 2 + 1 := fun _ => rfl
  have e2 : ∀ m : Nat, m + 2 = m + 1 + 1 := fun _ => rfl
  have hf : pyIsAlpha 'f' = true := by decide
  simp [e3, e2, parse_function_def, parse_key_value_pair, expect, expect_val,
    current_token_cons, advance_cons, val_str, pyIsIdentifier, hf]

/-- An absent arguments key after the comma is rejected. -/
theorem fdef_missing_arguments_key (ts : List Token) (k : Nat) :
    parse_function_def (k + 3)
      ([⟨.KEYWORD, .str "Defun"⟩, ⟨.LBRACE, .str "\x7b"⟩, ⟨.STRING, .str "name"⟩,
        ⟨.COLON, .str ":"⟩, ⟨.STRING, .str "f"⟩, ⟨.COMMA, .str ","⟩,
        ⟨.RBRACE, .str "\x7d"⟩] ++ ts)
      = .error (.expectedKey "arguments" (.str "\x7d")) := by
  have e3 : ∀ m : Nat, m + 3 = m + 2 + 1 := fun _ => rfl
  have e2 : ∀ m : Nat, m + 2 = m + 1 + 1 := fun _ => rfl
  have hf : pyIsAlpha 'f' = true := by decide
  simp [e3, e2, parse_function_def, parse_key_value_pair, expect, expect_val,
    current_token_cons, advance_cons, val_str, pyIsIdentifier, hf]

/-- C7: parsing a Defun raises an error when the name value is absent or
not a valid identifier spelling, and when the comma or the arguments key
before the parameter list is absent; every successful parse yields a
FunctionDef with a valid identifier name and a parameter list; and an
empty brace pair in body position yields a FunctionDef whose body is the
empty-body marker. -/
theorem C7_function_def_structure :
    (∀ (s : String) (ts : List Token) (k : Nat), pyIsIdentifier s = false →
      parse_function_def (k + 3)
        ([⟨.KEYWORD, .str "Defun"⟩, ⟨.LBRACE, .str "\x7b"⟩, ⟨.STRING, .str "name"⟩,
          ⟨.COLON, .str ":"⟩, ⟨.STRING, .str s⟩] ++ ts)
        = .error .invalidFunctionName) ∧
    (∀ (ts : List Token) (k : Nat),
      parse_function_def (k + 3)
        ([⟨.KEYWORD, .str "Defun"⟩, ⟨.LBRACE, .str "\x7b"⟩, ⟨.STRING, .str "name"⟩,
          ⟨.COLON, .str ":"⟩, ⟨.COMMA, .str ","⟩] ++ ts)
        = .error (.expectedNameString .COMMA)) ∧
    (∀ (ts : List Token) (k : Nat),
      parse_function_def (k + 3)
        ([⟨.KEYWORD, .str "Defun"⟩, ⟨.LBRACE, .str "\x7b"⟩, ⟨.STRING, .str "name"⟩,
          ⟨.COLON, .str ":"⟩, ⟨.STRING, .str "f"⟩, ⟨.RBRACE, .str "\x7d"⟩] ++ ts)
        = .error (.expected .COMMA .RBRACE)) ∧
    (∀ (ts : List Token) (k : Nat),
      parse_function_def (k + 3)
        ([⟨.KEYWORD, .str "Defun"⟩, ⟨.LBRACE, .str "\x7b"⟩, ⟨.STRING, .str "name"⟩,
          ⟨.COLON, .str ":"⟩, ⟨.STRING, .str "f"⟩, ⟨.COMMA, .str ","⟩,
          ⟨.RBRACE, .str "\x7d"⟩] ++ ts)
        = .error (.expectedKey "arguments" (.str "\x7d"))) ∧
    (∀ (fuel : Nat) (st : List Token) (node : Ast) (st2 : List Token),
      parse_function_def fuel st = .ok (node, st2) →
      ∃ name params body, node = .FunctionDef (.Identifier name) params body ∧
        name ≠ "" ∧ pyIsIdentifier name = true) ∧
    pipeline_parse 30 "Defun \x7b'name': 'f', 'arguments': ()\x7d \x7b \x7d"
      = .ok (.Program [.FunctionDef (.Identifier "f") [] Option.none], [eofTok]) :=
  ⟨fun s ts k h => fdef_bad_name s ts k h,
   fun ts k => fdef_missing_name_value ts k,
   fun ts k => fdef_missing_comma ts k,
   fun ts k => fdef_missing_arguments_key ts k,
   fdef_ok_shape, rfl⟩

/-- C7 witness: the structure theorem applied at the name 123 (not an
identifier spelling) and at a concrete successful parse. -/
theorem C7_function_def_structure_witness :
    parse_function_def (0 + 3)
      ([⟨.KEYWORD, .str "Defun"⟩, ⟨.LBRACE, .str "\x7b"⟩, ⟨.STRING, .str "name"⟩,
        ⟨.COLON, .str ":"⟩, ⟨.STRING, .str "123"⟩] ++ [eofTok])
      = .error .invalidFunctionName ∧
    (∃ name params body,
      Ast.FunctionDef (.Identifier "f") [.Identifier "x"] Option.none
        = .FunctionDef (.Identifier name) params body ∧
      name ≠ "" ∧ pyIsIdentifier name = true) :=
  ⟨C7_function_def_structure.1 "123" [eofTok] 0 (by decide),
   C7_function_def_structure.2.2.2.2.1 30 (defun_toks ["x"] true)
     (.FunctionDef (.Identifier "f") [.Identifier "x"] Option.none) [eofTok] rfl⟩

/-- C6: the logical level left-associates the and/or operators with no
precedence distinction: for all integer operands, a || b && c parses as
the and-operation applied to (the or-operation of a and b) and c. -/
theorem C6_logical_left_assoc (a b c : Int) :
    parse_program 30 [⟨.INTEGER, .int a⟩, ⟨.OR, .str "||"⟩, ⟨.INTEGER, .int b⟩,
        ⟨.AND, .str "&&"⟩, ⟨.INTEGER, .int c⟩, eofTok]
      = .ok (.Program [.BinaryOp
          (.BinaryOp (.Literal (.int a)) "||" (.Literal (.int b))) "&&"
          (.Literal (.int c))], [eofTok]) := rfl

theorem cons_tok_ok {tok : Token} {r : Except LexErr (List Token)} {ts : List Token}
    (h : cons_tok tok r = .ok ts) : ∃ ts2, r = .ok ts2 ∧ ts = tok :: ts2 := by
  cases r with
  | error e => simp [cons_tok] at h
  | ok l => simp only [cons_tok, Except.ok.injEq] at h; exact ⟨l, rfl, h.symm⟩

theorem identifier_token_ne_eof (s : String) : (identifier_token s).type ≠ TokTy.EOF := by
  unfold identifier_token
  split
  · next kv heq =>
      have hm := List.mem_of_find?_eq_some heq
      simp only [KEYWORDS, List.mem_cons, List.not_mem_nil, or_false] at hm
      rcases hm with rfl | rfl | rfl | rfl <;> simp
  · simp

theorem word_token_ne_eof (s : String) : (word_token s).type ≠ TokTy.EOF := by
  unfold word_token
  dsimp only
  split_ifs <;> simp [identifier_token_ne_eof s]

theorem single_char_token_ne_eof (c : Char) (tok : Token)
    (h : single_char_token c = some tok) : tok.type ≠ TokTy.EOF := by
  unfold single_char_token at h
  cases hf : SINGLE_TOKENS.find? (fun kv => kv.1 == c) with
  | none => simp [hf] at h
  | some kv =>
    have hm := List.mem_of_find?_eq_some hf
    simp only [hf, Option.map_some] at h
    obtain rfl := Option.some.inj h
    simp only [SINGLE_TOKENS, List.mem_cons, List.not_mem_nil, or_false] at hm
    rcases hm with rfl|rfl|rfl|rfl|rfl|rfl|rfl|rfl|rfl|rfl|rfl|rfl|rfl <;> simp

theorem pair_char_step_ne_eof (c : Char) (cs : List Char) (tok : Token) (rest : List Char)
    (h : pair_char_step c cs = .ok (tok, rest)) : tok.type ≠ TokTy.EOF := by
  unfold pair_char_step at h
  split_ifs at h
  all_goals repeat' split at h
  all_goals first
    | exact Except.noConfusion h
    | (cases h; simp)

theorem tokenize_step_ne_eof (c : Char) (cs : List Char) (tok : Token) (rest : List Char)
    (h : tokenize_step c cs = .ok (tok, rest)) : tok.type ≠ TokTy.EOF := by
  unfold tokenize_step at h
  split_ifs at h
  all_goals repeat' split at h
  all_goals first
    | exact Except.noConfusion h
    | (cases h; simp; done)
    | (cases h; exact word_token_ne_eof _)
    | (cases h; exact single_char_token_ne_eof c _ (by assumption))
    | exact pair_char_step_ne_eof c cs _ _ h

/-- Every successful run of the scanning loop produces a front of
non-end-of-input tokens followed by exactly the one end-of-input token. -/
theorem tokenize_loop_eof : ∀ (fuel : Nat) (cs : List Char) (ts : List Token),
    tokenize_loop fuel cs = .ok ts →
    ∃ front, ts = front ++ [eofTok] ∧ ∀ t ∈ front, t.type ≠ TokTy.EOF := by
  intro fuel
  induction fuel with
  | zero =>
    intro cs ts h
    cases cs with
    | nil =>
      obtain rfl := Except.ok.inj h
      exact ⟨[], rfl, by simp⟩
    | cons c cs => exact Except.noConfusion h
  | succ fuel ih =>
    intro cs ts h
    cases cs with
    | nil =>
      obtain rfl := Except.ok.inj h
      exact ⟨[], rfl, by simp⟩
    | cons c cs =>
      rw [tokenize_loop] at h
      repeat' split at h
      all_goals first
        | exact Except.noConfusion h
        | exact ih _ _ h
        | (obtain ⟨ts2, hrec, rfl⟩ := cons_tok_ok h
           obtain ⟨front, rfl, hfr⟩ := ih _ _ hrec
           refine ⟨_ :: front, rfl, ?_⟩
           intro t ht
           rcases List.mem_cons.mp ht with rfl | hmem
           · exact tokenize_step_ne_eof _ _ _ _ (by assumption)
           · exact hfr t hmem)

/-- C9: on every input on which tokenize succeeds, the token list is a
front of tokens none of which has kind EOF, followed by exactly one
end-of-input token Token(EOF, None); tokenizing the empty input yields
exactly that one token. -/
theorem C9_eof_terminator :
    (∀ (text : String) (ts : List Token), tokenize text = .ok ts →
      ∃ front, ts = front ++ [eofTok] ∧ ∀ t ∈ front, t.type ≠ TokTy.EOF) ∧
    tokenize "" = .ok [eofTok] :=
  ⟨fun _ _ h => tokenize_loop_eof _ _ _ h, rfl⟩

/-- C9 witness: the terminator theorem applied to the input 1 + 2. -/
theorem C9_eof_terminator_witness :
    ∃ front, [(⟨.INTEGER, .int 1⟩ : Token), ⟨.PLUS, .str "+"⟩, ⟨.INTEGER, .int 2⟩, eofTok]
      = front ++ [eofTok] ∧ ∀ t ∈ front, t.type ≠ TokTy.EOF :=
  C9_eof_terminator.1 "1 + 2"
    [⟨.INTEGER, .int 1⟩, ⟨.PLUS, .str "+"⟩, ⟨.INTEGER, .int 2⟩, eofTok] rfl

theorem takeWhile_all {p : Char → Bool} :
    ∀ l : List Char, (∀ x ∈ l, p x = true) → l.takeWhile p = l ∧ l.dropWhile p = [] := by
  intro l h
  induction l with
  | nil => exact ⟨rfl, rfl⟩
  | cons x xs ih =>
    have hx : p x = true := h x (by simp)
    have := ih (fun y hy => h y (by simp [hy]))
    simp [List.takeWhile, List.dropWhile, hx, this.1, this.2]

theorem word_token_not_reserved (s : String)
    (hres : s ∉ (["Defun", "Lambd", "True", "False", "and", "or", "not"] : List String)) :
    word_token s = ⟨.IDENTIFIER, .str s⟩ := by
  simp only [List.mem_cons, List.not_mem_nil, or_false, not_or] at hres
  obtain ⟨h1, h2, h3, h4, h5, h6, h7⟩ := hres
  have hfind : KEYWORDS.find? (fun kv => kv.1 == s) = Option.none := by
    rw [List.find?_eq_none]
    intro x hx
    simp only [KEYWORDS, List.mem_cons, List.not_mem_nil, or_false] at hx
    rcases hx with rfl|rfl|rfl|rfl <;> simp only [beq_iff_eq] <;>
      first | exact Ne.symm h1 | exact Ne.symm h2 | exact Ne.symm h3 | exact Ne.symm h4
  unfold word_token identifier_token
  rw [hfind]
  simp [h5, h6, h7]

theorem tokenize_word (c : Char) (rest : List Char) (ha : pyIsAlpha c = true)
    (hall : ∀ ch ∈ c :: rest, is_ident_char ch = true)
    (hres : (⟨c :: rest⟩ : String) ∉
      (["Defun", "Lambd", "True", "False", "and", "or", "not"] : List String)) :
    tokenize ⟨c :: rest⟩ = .ok [⟨.IDENTIFIER, .str ⟨c :: rest⟩⟩, eofTok] := by
  have hsp : pyIsSpace c = false := by
    simp only [pyIsAlpha, Bool.or_eq_true, Bool.and_eq_true, decide_eq_true_eq] at ha
    simp only [pyIsSpace, Bool.or_eq_false_iff, decide_eq_false_iff_not]
    omega
  have hdg : pyIsDigit c = false := by
    simp only [pyIsAlpha, Bool.or_eq_true, Bool.and_eq_true, decide_eq_true_eq] at ha
    simp only [pyIsDigit, Bool.and_eq_false_iff, decide_eq_false_iff_not]
    omega
  have hhash : ¬(c = '#') := by
    intro hEq; subst hEq; exact absurd ha (by decide)
  have hq : ¬(c = squote) := by
    intro hEq; subst hEq; exact absurd ha (by decide)
  have htd := takeWhile_all (c :: rest) hall
  show tokenize_loop ((c :: rest).length + 1) (c :: rest) = _
  rw [show (c :: rest).length + 1 = (rest.length + 1) + 1 from rfl]
  rw [tokenize_loop]
  rw [tokenize_step]
  simp only [hsp, hdg, ha, hhash, hq, if_false, if_true, Bool.false_eq_true, ite_false,
    ite_true, htd.1, htd.2]
  rw [word_token_not_reserved _ hres]
  rfl

/-- C8: the bare words and, or, not are retagged as logical-operator
tokens and never lex as identifiers, while every other maximal
alphanumeric-or-underscore run starting with a letter that is not in the
keyword table lexes as a single IDENTIFIER token. -/
theorem C8_reserved_words :
    tokenize "and" = .ok [⟨.AND, .str "and"⟩, eofTok] ∧
    tokenize "or" = .ok [⟨.OR, .str "or"⟩, eofTok] ∧
    tokenize "not" = .ok [⟨.NOT, .str "not"⟩, eofTok] ∧
    (∀ (c : Char) (rest : List Char), pyIsAlpha c = true →
      (∀ ch ∈ c :: rest, is_ident_char ch = true) →
      (⟨c :: rest⟩ : String) ∉
        (["Defun", "Lambd", "True", "False", "and", "or", "not"] : List String) →
      tokenize ⟨c :: rest⟩ = .ok [⟨.IDENTIFIER, .str ⟨c :: rest⟩⟩, eofTok]) :=
  ⟨rfl, rfl, rfl, tokenize_word⟩

/-- C8 witness: the reserved-words theorem applied to the word and1, which
is an identifier even though it extends a reserved word. -/
theorem C8_reserved_words_witness :
    tokenize ⟨'a' :: ['n', 'd', '1']⟩
      = .ok [⟨.IDENTIFIER, .str ⟨'a' :: ['n', 'd', '1']⟩⟩, eofTok] :=
  C8_reserved_words.2.2.2 'a' ['n', 'd', '1'] (by decide) (by decide) (by decide)

theorem cmp_loop_post : ∀ (fuel : Nat) (left : Ast) (st : List Token) (a : Ast)
    (st2 : List Token), parse_comparison_loop fuel left st = .ok (a, st2) →
    is_cmp (current_token st2).type = false := by
  intro fuel
  induction fuel with
  | zero => intro left st a st2 h; exact Except.noConfusion h
  | succ fuel ih =>
    intro left st a st2 h
    rw [parse_comparison_loop] at h
    split at h
    · split at h
      · exact Except.noConfusion h
      · exact ih _ _ _ _ h
    · cases h
      next hcond => simpa using hcond

theorem cmp_expr_post (fuel : Nat) (st : List Token) (a : Ast) (st2 : List Token)
    (h : parse_comparison_expression fuel st = .ok (a, st2)) :
    is_cmp (current_token st2).type = false := by
  match fuel with
  | 0 => exact Except.noConfusion h
  | fuel + 1 =>
    rw [parse_comparison_expression] at h
    split at h
    · exact Except.noConfusion h
    · exact cmp_loop_post _ _ _ _ _ h

theorem logical_loop_post : ∀ (fuel : Nat) (left : Ast) (st : List Token) (a : Ast)
    (st2 : List Token), parse_logical_loop fuel left st = .ok (a, st2) →
    is_cmp (current_token st).type = false →
    is_cmp (current_token st2).type = false := by
  intro fuel
  induction fuel with
  | zero => intro left st a st2 h _; exact Except.noConfusion h
  | succ fuel ih =>
    intro left st a st2 h hst
    rw [parse_logical_loop] at h
    split at h
    · split at h
      · exact Except.noConfusion h
      · next hcmp => exact ih _ _ _ _ h (cmp_expr_post _ _ _ _ hcmp)
    · cases h
      exact hst

theorem logical_expr_post (fuel : Nat) (st : List Token) (a : Ast) (st2 : List Token)
    (h : parse_logical_expression fuel st = .ok (a, st2)) :
    is_cmp (current_token st2).type = false := by
  match fuel with
  | 0 => exact Except.noConfusion h
  | fuel + 1 =>
    rw [parse_logical_expression] at h
    split at h
    · exact Except.noConfusion h
    · next hcmp => exact logical_loop_post _ _ _ _ _ h (cmp_expr_post _ _ _ _ hcmp)

/-- After parse_expression succeeds the current token is never a comparison
operator (and the same for parse_assignment). -/
theorem expr_post : ∀ (fuel : Nat),
    (∀ (st : List Token) (a : Ast) (st2 : List Token),
      parse_expression fuel st = .ok (a, st2) → is_cmp (current_token st2).type = false) ∧
    (∀ (st : List Token) (a : Ast) (st2 : List Token),
      parse_assignment fuel st = .ok (a, st2) → is_cmp (current_token st2).type = false) := by
  intro fuel
  induction fuel with
  | zero =>
    exact ⟨fun st a st2 h => Except.noConfusion h, fun st a st2 h => Except.noConfusion h⟩
  | succ fuel ih =>
    constructor
    · intro st a st2 h
      rw [parse_expression] at h
      split at h
      · exact ih.2 _ _ _ h
      · exact logical_expr_post _ _ _ _ h
    · intro st a st2 h
      rw [parse_assignment] at h
      split at h
      · exact Except.noConfusion h
      · split at h
        · split at h
          · exact Except.noConfusion h
          · next hexp => cases h; exact ih.1 _ _ _ hexp
        · exact Except.noConfusion h

theorem cleanL_append (l1 l2 : List Ast) : cleanL (l1 ++ l2) = (cleanL l1 && cleanL l2) := by
  induction l1 with
  | nil => simp [cleanL]
  | cons a rest ih => simp [cleanL, ih, Bool.and_assoc]

theorem parse_identifier_clean : ∀ (st : List Token) (a : Ast) (st2 : List Token),
    parse_identifier st = .ok (a, st2) → cleanA a = true := by
  intro st a st2 h
  unfold parse_identifier at h
  dsimp only at h
  split at h
  · cases h; rfl
  · exact Except.noConfusion h

theorem clean_factor (fuel : Nat) (ih : CleanStmts fuel) :
    ∀ st a st2, parse_factor (fuel + 1) st = .ok (a, st2) → cleanA a = true := by
  obtain ⟨ihf, -, -, -, -, -, -, -, -, ihe, -, ihlam, -, ihca, -, -, -, -, -⟩ := ih
  have hpost := (expr_post fuel).1
  intro st a st2 h
  rw [parse_factor] at h
  dsimp only at h
  repeat' split at h
  all_goals first
    | exact Except.noConfusion h
    | exact ihlam _ _ _ h
    | (cases h; simp [cleanA, cleanL, cleanO]; done)
    | (cases h; (try simp only [cleanA]); exact ihf _ _ _ (by assumption))
    | (cases h; (try simp only [cleanA]); exact ihe _ _ _ (by assumption))
    | (cases h; simp [cleanA, cleanL]; exact ihca [] _ _ _ rfl (by assumption))
    | (cases h; exact absurd (hpost (advance st) _ _ (by assumption)) (by simp [*]))

theorem clean_term_loop (fuel : Nat) (ih : CleanStmts fuel) :
    ∀ left st a st2, cleanA left = true →
      parse_term_loop (fuel + 1) left st = .ok (a, st2) → cleanA a = true := by
  obtain ⟨ihf, ihtl, -, -, -, -, -, -, -, -, -, -, -, -, -, -, -, -, -⟩ := ih
  intro left st a st2 hL h
  rw [parse_term_loop] at h
  (try dsimp only at h)
  repeat' split at h
  all_goals first
    | exact Except.noConfusion h
    | (cases h; exact hL)
    | (apply ihtl _ _ _ _ ?_ h
       simp only [cleanA, Bool.and_eq_true]
       exact ⟨hL, ihf _ _ _ (by assumption)⟩)

theorem clean_term (fuel : Nat) (ih : CleanStmts fuel) :
    ∀ st a st2, parse_term (fuel + 1) st = .ok (a, st2) → cleanA a = true := by
  obtain ⟨ihf, ihtl, -, -, -, -, -, -, -, -, -, -, -, -, -, -, -, -, -⟩ := ih
  intro st a st2 h
  rw [parse_term] at h
  repeat' split at h
  all_goals first
    | exact Except.noConfusion h
    | exact ihtl _ _ _ _ (ihf _ _ _ (by assumption)) h

theorem clean_arith_loop (fuel : Nat) (ih : CleanStmts fuel) :
    ∀ left st a st2, cleanA left = true →
      parse_arithmetic_loop (fuel + 1) left st = .ok (a, st2) → cleanA a = true := by
  obtain ⟨-, -, iht, ihal, -, -, -, -, -, -, -, -, -, -, -, -, -, -, -⟩ := ih
  intro left st a st2 hL h
  rw [parse_arithmetic_loop] at h
  (try dsimp only at h)
  repeat' split at h
  all_goals first
    | exact Except.noConfusion h
    | (cases h; exact hL)
    | (apply ihal _ _ _ _ ?_ h
       simp only [cleanA, Bool.and_eq_true]
       exact ⟨hL, iht _ _ _ (by assumption)⟩)

theorem clean_arith (fuel : Nat) (ih : CleanStmts fuel) :
    ∀ st a st2, parse_arithmetic_expression (fuel + 1) st = .ok (a, st2) → cleanA a = true := by
  obtain ⟨-, -, iht, ihal, -, -, -, -, -, -, -, -, -, -, -, -, -, -, -⟩ := ih
  intro st a st2 h
  rw [parse_arithmetic_expression] at h
  repeat' split at h
  all_goals first
    | exact Except.noConfusion h
    | exact ihal _ _ _ _ (iht _ _ _ (by assumption)) h

theorem clean_cmp_loop (fuel : Nat) (ih : CleanStmts fuel) :
    ∀ left st a st2, cleanA left = true →
      parse_comparison_loop (fuel + 1) left st = .ok (a, st2) → cleanA a = true := by
  obtain ⟨-, -, -, -, ihae, ihcl, -, -, -, -, -, -, -, -, -, -, -, -, -⟩ := ih
  intro left st a st2 hL h
  rw [parse_comparison_loop] at h
  (try dsimp only at h)
  repeat' split at h
  all_goals first
    | exact Except.noConfusion h
    | (cases h; exact hL)
    | (apply ihcl _ _ _ _ ?_ h
       simp only [cleanA, Bool.and_eq_true]
       exact ⟨hL, ihae _ _ _ (by assumption)⟩)

theorem clean_cmp (fuel : Nat) (ih : CleanStmts fuel) :
    ∀ st a st2, parse_comparison_expression (fuel + 1) st = .ok (a, st2) → cleanA a = true := by
  obtain ⟨-, -, -, -, ihae, ihcl, -, -, -, -, -, -, -, -, -, -, -, -, -⟩ := ih
  intro st a st2 h
  rw [parse_comparison_expression] at h
  repeat' split at h
  all_goals first
    | exact Except.noConfusion h
    | exact ihcl _ _ _ _ (ihae _ _ _ (by assumption)) h

theorem clean_log_loop (fuel : Nat) (ih : CleanStmts fuel) :
    ∀ left st a st2, cleanA left = true →
      parse_logical_loop (fuel + 1) left st = .ok (a, st2) → cleanA a = true := by
  obtain ⟨-, -, -, -, -, -, ihce, ihll, -, -, -, -, -, -, -, -, -, -, -⟩ := ih
  intro left st a st2 hL h
  rw [parse_logical_loop] at h
  (try dsimp only at h)
  repeat' split at h
  all_goals first
    | exact Except.noConfusion h
    | (cases h; exact hL)
    | (apply ihll _ _ _ _ ?_ h
       simp only [cleanA, Bool.and_eq_true]
       exact ⟨hL, ihce _ _ _ (by assumption)⟩)

theorem clean_log (fuel : Nat) (ih : CleanStmts fuel) :
    ∀ st a st2, parse_logical_expression (fuel + 1) st = .ok (a, st2) → cleanA a = true := by
  obtain ⟨-, -, -, -, -, -, ihce, ihll, -, -, -, -, -, -, -, -, -, -, -⟩ := ih
  intro st a st2 h
  rw [parse_logical_expression] at h
  repeat' split at h
  all_goals first
    | exact Except.noConfusion h
    | exact ihll _ _ _ _ (ihce _ _ _ (by assumption)) h

theorem clean_expr (fuel : Nat) (ih : CleanStmts fuel) :
    ∀ st a st2, parse_expression (fuel + 1) st = .ok (a, st2) → cleanA a = true := by
  obtain ⟨-, -, -, -, -, -, -, -, ihle, -, ihas, -, -, -, -, -, -, -, -⟩ := ih
  intro st a st2 h
  rw [parse_expression] at h
  split at h
  · exact ihas _ _ _ h
  · exact ihle _ _ _ h

theorem clean_assign (fuel : Nat) (ih : CleanStmts fuel) :
    ∀ st a st2, parse_assignment (fuel + 1) st = .ok (a, st2) → cleanA a = true := by
  obtain ⟨-, -, -, -, -, -, -, -, -, ihe, -, -, -, -, -, -, -, -, -⟩ := ih
  intro st a st2 h
  rw [parse_assignment] at h
  (try dsimp only at h)
  repeat' split at h
  all_goals first
    | exact Except.noConfusion h
    | (cases h
       simp only [cleanA, Bool.and_eq_true]
       exact ⟨parse_identifier_clean _ _ _ (by assumption), ihe _ _ _ (by assumption)⟩)

theorem clean_lambda (fuel : Nat) (ih : CleanStmts fuel) :
    ∀ st a st2, parse_lambda (fuel + 1) st = .ok (a, st2) → cleanA a = true := by
  obtain ⟨-, -, -, -, -, -, -, -, -, ihe, -, -, ihlp, -, -, -, -, -, -⟩ := ih
  intro st a st2 h
  rw [parse_lambda] at h
  (try dsimp only at h)
  repeat' split at h
  all_goals first
    | exact Except.noConfusion h
    | (cases h
       simp only [cleanA, Bool.and_eq_true]
       constructor
       · apply ihlp _ _ _ _ ?_ (by assumption)
         simp [cleanL, parse_identifier_clean _ _ _ (by assumption)]
       · exact ihe _ _ _ (by assumption))

theorem clean_lambda_params (fuel : Nat) (ih : CleanStmts fuel) :
    ∀ acc st ps st2, cleanL acc = true →
      parse_lambda_params (fuel + 1) acc st = .ok (ps, st2) → cleanL ps = true := by
  obtain ⟨-, -, -, -, -, -, -, -, -, -, -, -, ihlp, -, -, -, -, -, -⟩ := ih
  intro acc st ps st2 hacc h
  rw [parse_lambda_params] at h
  (try dsimp only at h)
  repeat' split at h
  all_goals first
    | exact Except.noConfusion h
    | (cases h; exact hacc)
    | (apply ihlp _ _ _ _ ?_ h
       simp [cleanL_append, cleanL, hacc, parse_identifier_clean _ _ _ (by assumption)])

theorem clean_call_args (fuel : Nat) (ih : CleanStmts fuel) :
    ∀ acc st args st2, cleanL acc = true →
      parse_call_args (fuel + 1) acc st = .ok (args, st2) → cleanL args = true := by
  obtain ⟨-, -, -, -, -, -, -, -, -, ihe, -, -, -, ihca, -, -, -, -, -⟩ := ih
  intro acc st args st2 hacc h
  rw [parse_call_args] at h
  (try dsimp only at h)
  repeat' split at h
  all_goals first
    | exact Except.noConfusion h
    | (cases h
       simp [cleanL_append, cleanL, hacc, ihe _ _ _ (by assumption)])
    | (apply ihca _ _ _ _ ?_ h
       simp [cleanL_append, cleanL, hacc, ihe _ _ _ (by assumption)])

theorem clean_params (fuel : Nat) (ih : CleanStmts fuel) :
    ∀ st ps st2, parse_parameters (fuel + 1) st = .ok (ps, st2) → cleanL ps = true := by
  obtain ⟨-, -, -, -, -, -, -, -, -, -, -, -, -, -, -, ihppl, -, -, -⟩ := ih
  intro st ps st2 h
  rw [parse_parameters] at h
  repeat' split at h
  all_goals first
    | exact Except.noConfusion h
    | (cases h; rfl)
    | exact ihppl [] _ _ _ rfl h

theorem clean_params_loop (fuel : Nat) (ih : CleanStmts fuel) :
    ∀ acc st ps st2, cleanL acc = true →
      parse_parameters_loop (fuel + 1) acc st = .ok (ps, st2) → cleanL ps = true := by
  obtain ⟨-, -, -, -, -, -, -, -, -, -, -, -, -, -, -, ihppl, -, -, -⟩ := ih
  intro acc st ps st2 hacc h
  rw [parse_parameters_loop] at h
  (try dsimp only at h)
  repeat' split at h
  all_goals first
    | exact Except.noConfusion h
    | (cases h; exact hacc)
    | (cases h
       simp [cleanL_append, cleanL, hacc, parse_identifier_clean _ _ _ (by assumption)])
    | (apply ihppl _ _ _ _ ?_ h
       simp [cleanL_append, cleanL, hacc, parse_identifier_clean _ _ _ (by assumption)])

theorem clean_kvp (fuel : Nat) (ih : CleanStmts fuel) :
    ∀ key st res st2, parse_key_value_pair (fuel + 1) key st = .ok (res, st2) →
      ∀ ps, res = some (Sum.inr ps) → cleanL ps = true := by
  obtain ⟨-, -, -, -, -, -, -, -, -, -, -, -, -, -, ihpp, -, -, -, -⟩ := ih
  intro key st res st2 h
  rw [parse_key_value_pair] at h
  (try dsimp only at h)
  repeat' split at h
  all_goals first
    | exact Except.noConfusion h
    | (cases h; intro ps hres
       cases Sum.inr.inj (Option.some.inj hres)
       exact ihpp _ _ _ (by assumption))
    | (cases h; intro ps hres; simp at hres; done)

theorem clean_fdef (fuel : Nat) (ih : CleanStmts fuel) :
    ∀ st a st2, parse_function_def (fuel + 1) st = .ok (a, st2) → cleanA a = true := by
  obtain ⟨-, -, -, -, -, -, -, -, -, ihe, -, -, -, -, -, -, ihkv, -, -⟩ := ih
  intro st a st2 h
  rw [parse_function_def] at h
  (try dsimp only at h)
  repeat' split at h
  all_goals first
    | exact Except.noConfusion h
    | (cases h
       (try have hb := ihe _ _ _ (by assumption))
       (try have hps := ihkv _ _ _ _ (by assumption) _ rfl)
       simp [cleanA, cleanL, cleanO, *])

theorem clean_prog_loop (fuel : Nat) (ih : CleanStmts fuel) :
    ∀ acc st p st2, cleanL acc = true →
      parse_program_loop (fuel + 1) acc st = .ok (p, st2) → cleanA p = true := by
  obtain ⟨-, -, -, -, -, -, -, -, -, ihe, -, -, -, -, -, -, -, ihfd, ihprog⟩ := ih
  intro acc st p st2 hacc h
  rw [parse_program_loop] at h
  (try dsimp only at h)
  repeat' split at h
  all_goals first
    | exact Except.noConfusion h
    | (cases h; simpa [cleanA] using hacc)
    | (apply ihprog _ _ _ _ ?_ h
       simp [cleanL_append, cleanL, hacc, ihfd _ _ _ (by assumption)])
    | (apply ihprog _ _ _ _ ?_ h
       simp [cleanL_append, cleanL, hacc, ihe _ _ _ (by assumption)])

/-- Every parsing function only builds clean nodes, by induction on fuel. -/
theorem parse_clean : ∀ fuel : Nat, CleanStmts fuel := by
  intro fuel
  induction fuel with
  | zero =>
    exact ⟨fun st a st2 h => Except.noConfusion h,
      fun l st a st2 hc h => Except.noConfusion h,
      fun st a st2 h => Except.noConfusion h,
      fun l st a st2 hc h => Except.noConfusion h,
      fun st a st2 h => Except.noConfusion h,
      fun l st a st2 hc h => Except.noConfusion h,
      fun st a st2 h => Except.noConfusion h,
      fun l st a st2 hc h => Except.noConfusion h,
      fun st a st2 h => Except.noConfusion h,
      fun st a st2 h => Except.noConfusion h,
      fun st a st2 h => Except.noConfusion h,
      fun st a st2 h => Except.noConfusion h,
      fun acc st ps st2 hc h => Except.noConfusion h,
      fun acc st args st2 hc h => Except.noConfusion h,
      fun st ps st2 h => Except.noConfusion h,
      fun acc st ps st2 hc h => Except.noConfusion h,
      fun key st res st2 h => Except.noConfusion h,
      fun st a st2 h => Except.noConfusion h,
      fun acc st p st2 hc h => Except.noConfusion h⟩
  | succ fuel ih =>
    exact ⟨clean_factor fuel ih, clean_term_loop fuel ih, clean_term fuel ih,
      clean_arith_loop fuel ih, clean_arith fuel ih, clean_cmp_loop fuel ih,
      clean_cmp fuel ih, clean_log_loop fuel ih, clean_log fuel ih, clean_expr fuel ih,
      clean_assign fuel ih, clean_lambda fuel ih, clean_lambda_params fuel ih,
      clean_call_args fuel ih, clean_params fuel ih, clean_params_loop fuel ih,
      clean_kvp fuel ih, clean_fdef fuel ih, clean_prog_loop fuel ih⟩

/-- C10: after parse_expression returns successfully the current token is
never a comparison operator, so the parenthesized-comparison branch of
parse_factor never fires; consequently the AST returned by parse_program
contains no Comparison, LogicalOp or BooleanOp node for any token sequence
and any fuel — every comparison and logical operation is a BinaryOp
carrying the operator spelling. -/
theorem C10_no_banned_nodes :
    (∀ (fuel : Nat) (st : List Token) (a : Ast) (st2 : List Token),
      parse_expression fuel st = .ok (a, st2) → is_cmp (current_token st2).type = false) ∧
    (∀ (fuel : Nat) (st : List Token) (p : Ast) (st2 : List Token),
      parse_program fuel st = .ok (p, st2) → cleanA p = true) := by
  constructor
  · intro fuel
    exact (expr_post fuel).1
  · intro fuel st p st2 h
    exact (parse_clean fuel).2.2.2.2.2.2.2.2.2.2.2.2.2.2.2.2.2.2 [] st p st2 rfl h

/-- C10 witness: the invariant applied to the concrete expression and
program consisting of the single literal 1. -/
theorem C10_no_banned_nodes_witness :
    is_cmp (current_token [eofTok]).type = false ∧
    cleanA (.Program [.Literal (.int 1)]) = true :=
  ⟨C10_no_banned_nodes.1 20 [⟨.INTEGER, .int 1⟩, eofTok] (.Literal (.int 1)) [eofTok] rfl,
   C10_no_banned_nodes.2 20 [⟨.INTEGER, .int 1⟩, eofTok] (.Program [.Literal (.int 1)])
     [eofTok] rfl⟩

end PyInterp
